import Mathlib

/-!
Verification development for `mnist_mlp_function.py`, a TensorFlow 2 example
program that trains an MLP on MNIST and runs single-image inference.

The numeric pipeline is shallowly embedded over `ℚ` (idealised exact
arithmetic standing for the float computation).  The irrational primitives of
the framework are abstracted as function parameters:
`e : ℚ → ℚ` stands for `exp` (used by the softmax activation; the theorems
assume only its positivity), `rsqrt : ℚ → ℚ` stands for `1/sqrt` (used by
batch normalization; no theorem depends on its values) and `lg : ℚ → ℚ`
stands for `log` (used by the cross-entropy loss).  Stochastic dropout is
made explicit by passing the realised 0/1 masks as data.

The training driver `train` (source lines 83-190) is embedded as the trace
of observable actions it performs, and a small interpreter runs a trace on a
parameter state.  The `__main__` dispatch (source lines 202-224) is embedded
as a pure function of an abstract file-existence predicate.
-/

/- ===== basic vector/matrix helpers over ℚ ===== -/

def relu (x : ℚ) : ℚ := max x 0

def dot (a b : List ℚ) : ℚ := (List.zipWith (fun x y => x * y) a b).sum

def vecAdd (a b : List ℚ) : List ℚ := List.zipWith (fun x y => x + y) a b

def vecScale (c : ℚ) (a : List ℚ) : List ℚ := a.map (fun x => c * x)

def matAdd (a b : List (List ℚ)) : List (List ℚ) := List.zipWith vecAdd a b

def matScale (c : ℚ) (m : List (List ℚ)) : List (List ℚ) := m.map (vecScale c)

/-- Per-feature mean of a batch of rows (`d` is the feature dimension). -/
def featureMeans (d : ℕ) (xs : List (List ℚ)) : List ℚ :=
  vecScale (1 / (xs.length : ℚ)) (xs.foldl vecAdd (List.replicate d 0))

/-- Keras moving-average update: `moving * momentum + batch * (1 - momentum)`,
applied per feature. -/
def updateVec (momentum : ℚ) (cur batch : List ℚ) : List ℚ :=
  List.zipWith (fun o b => momentum * o + (1 - momentum) * b) cur batch

/-- Embedding of `tf.reduce_mean(tf.stack(outs), 0)`: elementwise mean of a stack of
equally shaped matrices. -/
def stackMean (outs : List (List (List ℚ))) : List (List ℚ) :=
  match outs with
  | [] => []
  | o :: rest => matScale (1 / (((o :: rest).length : ℕ) : ℚ)) (rest.foldl matAdd o)

/-- Softmax activation on one row, with `e` standing for `exp`:
`softmax(x)_i = e(x_i) / Σ_j e(x_j)` (source line 40). -/
def softmax (e : ℚ → ℚ) (x : List ℚ) : List ℚ :=
  let ex := x.map e
  ex.map (fun t => t / ex.sum)

/-- Helper for `listArgmax`: index of the first maximal element, scanning with
running best index/value, as `numpy.argmax` does. -/
def argmaxAux : ℕ → ℕ → ℚ → List ℚ → ℕ
  | _, best, _, [] => best
  | i, best, bv, x :: xs =>
    if bv < x then argmaxAux (i + 1) i x xs else argmaxAux (i + 1) best bv xs

/-- Embedding of `probs.argmax()` on a row (first index achieving the maximum). -/
def listArgmax : List ℚ → ℕ
  | [] => 0
  | x :: xs => argmaxAux 1 0 x xs

/-- Embedding of `probs.max()` on a row. -/
def listMax : List ℚ → ℚ
  | [] => 0
  | x :: xs => xs.foldl max x

/- ===== layers (source lines 25-46) ===== -/

/-- Parameters of a `keras.layers.Dense` layer; `kernel` is stored one weight
row per output unit (the transpose of the keras layout). -/
structure DenseParams where
  kernel : List (List ℚ)
  bias : List ℚ
deriving DecidableEq

/-- Forward pass of `Dense` on one row: affine map `x ↦ Wx + b`. -/
def dense (p : DenseParams) (x : List ℚ) : List ℚ :=
  List.zipWith (fun w b => dot w x + b) p.kernel p.bias

/-- Configuration of a `keras.layers.BatchNormalization` layer (`gamma`/`beta`
are the learned scale/shift; `momentum`/`epsilon` are the constructor
arguments, keras defaults `0.99` and `1e-3`). -/
structure BNParams where
  gamma : List ℚ
  beta : List ℚ
  momentum : ℚ
  epsilon : ℚ
deriving DecidableEq

/-- The non-trainable running statistics of a batch-normalization layer.
They are part of `model.variables` and are persisted by `save_weights`. -/
structure BNStats where
  movingMean : List ℚ
  movingVar : List ℚ
deriving DecidableEq

/-- Per-feature mean of the batch reaching a batch-norm layer. -/
def bnBatchMean (q : BNParams) (zs : List (List ℚ)) : List ℚ :=
  featureMeans q.gamma.length zs

/-- Per-feature variance of the batch reaching a batch-norm layer. -/
def bnBatchVar (q : BNParams) (zs : List (List ℚ)) (bm : List ℚ) : List ℚ :=
  featureMeans q.gamma.length (zs.map (fun r => List.zipWith (fun x m => (x - m) ^ 2) r bm))

/-- Normalise one row against the given mean/variance:
`γ·(x-μ)·rsqrt(σ²+ε) + β` per feature (`rsqrt` stands for `1/sqrt`). -/
def bnApply (rsqrt : ℚ → ℚ) (q : BNParams) (mean var row : List ℚ) : List ℚ :=
  List.zipWith
    (fun xi gbmv =>
      gbmv.1 * (xi - gbmv.2.2.1) * rsqrt (gbmv.2.2.2 + q.epsilon) + gbmv.2.1)
    row (q.gamma.zip (q.beta.zip (mean.zip var)))

/-- Batch-norm in inference mode: normalise against the accumulated moving
statistics; no state change. -/
def bnInfer (rsqrt : ℚ → ℚ) (q : BNParams) (s : BNStats) (row : List ℚ) : List ℚ :=
  bnApply rsqrt q s.movingMean s.movingVar row

/-- Batch-norm in training mode: normalise the batch against its own
statistics and update the moving statistics by the keras momentum rule. -/
def bnTrain (rsqrt : ℚ → ℚ) (q : BNParams) (s : BNStats) (zs : List (List ℚ)) :
    List (List ℚ) × BNStats :=
  let bm := bnBatchMean q zs
  let bv := bnBatchVar q zs bm
  (zs.map (bnApply rsqrt q bm bv),
   BNStats.mk (updateVec q.momentum s.movingMean bm) (updateVec q.momentum s.movingVar bv))

/-- Inverted dropout in training mode: multiply by the realised 0/1 mask and
rescale by `1/(1-rate)`; in inference mode keras dropout is the identity. -/
def dropoutTrain (rate : ℚ) (row mask : List ℚ) : List ℚ :=
  List.zipWith (fun xi mi => xi * mi / (1 - rate)) row mask

/- ===== the MLP model (source lines 25-46) ===== -/

/-- Learnable parameters of `MLP`: encoder `Dense(128) → BN → relu →
Dense(32) → BN → relu`, decoder `Dense(num_class) → Dropout(.1) → softmax`. -/
structure MLPParams where
  d1 : DenseParams
  bn1 : BNParams
  d2 : DenseParams
  bn2 : BNParams
  d3 : DenseParams
deriving DecidableEq

/-- Running batch-norm statistics of the two encoder BN layers. -/
structure MLPStats where
  bn1 : BNStats
  bn2 : BNStats
deriving DecidableEq

/-- Embedding of `self.encoder(x, training=training)` on a batch: returns the activations
and the (possibly updated) batch-norm statistics. -/
def encoderCall (rsqrt : ℚ → ℚ) (p : MLPParams) (training : Bool) (st : MLPStats)
    (xs : List (List ℚ)) : List (List ℚ) × MLPStats :=
  if training then
    let z1 := xs.map (dense p.d1)
    let r1 := bnTrain rsqrt p.bn1 st.bn1 z1
    let a1 := r1.1.map (fun row => row.map relu)
    let z2 := a1.map (dense p.d2)
    let r2 := bnTrain rsqrt p.bn2 st.bn2 z2
    let a2 := r2.1.map (fun row => row.map relu)
    (a2, MLPStats.mk r1.2 r2.2)
  else
    (xs.map (fun x =>
      ((bnInfer rsqrt p.bn2 st.bn2
        (dense p.d2 ((bnInfer rsqrt p.bn1 st.bn1 (dense p.d1 x)).map relu))).map relu)), st)

/-- Embedding of `self.decoder(x, training=training)` on a batch; in training mode dropout
multiplies by the realised per-row masks, in inference mode it is skipped. -/
def decoderCall (e : ℚ → ℚ) (p : MLPParams) (training : Bool)
    (hs masks : List (List ℚ)) : List (List ℚ) :=
  if training then
    List.zipWith (fun h mask => softmax e (dropoutTrain (1 / 10) (dense p.d3 h) mask)) hs masks
  else
    hs.map (fun h => softmax e (dense p.d3 h))

/-- Embedding of `MLP.call` (source lines 43-46): encoder then decoder, with the training
flag passed to both. -/
def mlpCall (rsqrt e : ℚ → ℚ) (p : MLPParams) (training : Bool) (st : MLPStats)
    (xs masks : List (List ℚ)) : List (List ℚ) × MLPStats :=
  let enc := encoderCall rsqrt p training st xs
  (decoderCall e p training enc.1 masks, enc.2)

/-- The batch-norm statistics update performed by one training-mode forward
pass on the fixed batch `xs` (the output of `mlpCall` on its state side). -/
def encStatsStep (rsqrt : ℚ → ℚ) (p : MLPParams) (xs : List (List ℚ))
    (st : MLPStats) : MLPStats :=
  (encoderCall rsqrt p true st xs).2

/- ===== metrics and loss (source lines 95, 104-107) ===== -/

/-- State of `keras.metrics.Mean`: running total and sample count. -/
structure MeanState where
  total : ℚ
  count : ℚ
deriving DecidableEq

def meanUpdate (s : MeanState) (v : ℚ) : MeanState :=
  MeanState.mk (s.total + v) (s.count + 1)

def meanResult (s : MeanState) : ℚ :=
  if s.count = 0 then 0 else s.total / s.count

/-- State of `keras.metrics.SparseCategoricalAccuracy`: number of matching
predictions and number of samples seen. -/
structure AccState where
  total : ℚ
  count : ℚ
deriving DecidableEq

/-- Embedding of `reset_states()` on an accuracy accumulator. -/
def accReset (_s : AccState) : AccState := AccState.mk 0 0

/-- Accumulate one batch: a prediction row matches when its argmax equals the
integer label. -/
def accUpdate (s : AccState) (yb : List ℕ) (out : List (List ℚ)) : AccState :=
  AccState.mk
    (s.total + (((yb.zip out).countP (fun pr => listArgmax pr.2 == pr.1) : ℕ) : ℚ))
    (s.count + ((yb.length : ℕ) : ℚ))

def accResult (s : AccState) : ℚ :=
  if s.count = 0 then 0 else s.total / s.count

/-- The pair of validation metric accumulators (`test_loss`, `test_accuracy`). -/
structure Metrics where
  loss : MeanState
  acc : AccState
deriving DecidableEq

/-- Embedding of `keras.losses.SparseCategoricalCrossentropy`: batch mean of
`-log p[label]`, with `lg` standing for `log`. -/
def sparseCategoricalCrossentropy (lg : ℚ → ℚ) (yb : List ℕ) (out : List (List ℚ)) : ℚ :=
  let losses := (yb.zip out).map (fun pr => -(lg (pr.2.getD pr.1 0)))
  losses.sum / (losses.length : ℚ)

/- ===== valid_step_with_dropout (source lines 126-134) ===== -/

/-- One iteration of the `for i in range(num_samples)` loop: append
`model(x_batch, training=True)` to `outs`, threading the batch-norm state. -/
def mcAccum (rsqrt e : ℚ → ℚ) (p : MLPParams) (xb : List (List ℚ))
    (masks : ℕ → List (List ℚ)) (acc : List (List (List ℚ)) × MLPStats) (i : ℕ) :
    List (List (List ℚ)) × MLPStats :=
  let r := mlpCall rsqrt e p true acc.2 xb (masks i)
  (acc.1 ++ [r.1], r.2)

/-- Embedding of `valid_step_with_dropout`: `num_samples` stochastic forward passes with
`training=True`, predictions averaged before the loss/metric updates.
Returns the resulting batch-norm statistics and metric state. -/
def validStepWithDropout (rsqrt e lg : ℚ → ℚ) (p : MLPParams) (numSamples : ℕ)
    (st : MLPStats) (masks : ℕ → List (List ℚ)) (xb : List (List ℚ)) (yb : List ℕ)
    (m : Metrics) : MLPStats × Metrics :=
  let acc := (List.range numSamples).foldl (mcAccum rsqrt e p xb masks) ([], st)
  let out := stackMean acc.1
  let loss := sparseCategoricalCrossentropy lg yb out
  (acc.2, Metrics.mk (meanUpdate m.loss loss) (accUpdate m.acc yb out))

/-- Modelled from the spec: the comparison target of the Monte-Carlo claim,
"standard dropout-enabled inference", i.e. one model call with
`training=True` followed by the same loss and metric updates. -/
def singleDropoutPass (rsqrt e lg : ℚ → ℚ) (p : MLPParams) (st : MLPStats)
    (mask : List (List ℚ)) (xb : List (List ℚ)) (yb : List ℕ) (m : Metrics) :
    MLPStats × Metrics :=
  let r := mlpCall rsqrt e p true st xb mask
  let loss := sparseCategoricalCrossentropy lg yb r.1
  (r.2, Metrics.mk (meanUpdate m.loss loss) (accUpdate m.acc yb r.1))

/- ===== module constants (source lines 16-22) ===== -/

def BATCH_SIZE : ℕ := 32

def NUM_CLASS : ℕ := 10

def NUM_EPOCHS : ℕ := 30

def LEARNING_RATE : ℚ := 1 / 1000

def MODEL_FILE : String := "models/mnist_mlp_function/model"

/- ===== inference driver (source lines 193-199) ===== -/

/-- Embedding of `model.predict(image)` on one decoded `1×784` input: a forward pass in
inference mode; the single row of class probabilities. -/
def predict (rsqrt e : ℚ → ℚ) (p : MLPParams) (st : MLPStats) (image : List ℚ) : List ℚ :=
  (mlpCall rsqrt e p false st [image] []).1.headD []

/-- The report printed by `inference`: `probs.argmax()` and `probs.max()`
(source line 199). -/
def inferenceReport (rsqrt e : ℚ → ℚ) (p : MLPParams) (st : MLPStats)
    (image : List ℚ) : ℕ × ℚ :=
  let probs := predict rsqrt e p st image
  (listArgmax probs, listMax probs)

/- ===== parameter persistence (source lines 190, 195-196) ===== -/

/-- Modelled from the spec: `model.save_weights(MODEL_FILE, save_format='tf')`
is TensorFlow-internal; per the spec the checkpoint "must round-trip
parameter values exactly", so it is modelled as storing each variable of the
model, flattened, in a fixed order. -/
def saveWeights (p : MLPParams) (st : MLPStats) : List (List ℚ) :=
  [p.d1.kernel.flatten, p.d1.bias,
   p.bn1.gamma, p.bn1.beta, st.bn1.movingMean, st.bn1.movingVar,
   p.d2.kernel.flatten, p.d2.bias,
   p.bn2.gamma, p.bn2.beta, st.bn2.movingMean, st.bn2.movingVar,
   p.d3.kernel.flatten, p.d3.bias]

/-- Split a flat list back into `rows` rows of `cols` entries. -/
def splitChunks (cols : ℕ) : ℕ → List ℚ → List (List ℚ)
  | 0, _ => []
  | rows + 1, l => l.take cols :: splitChunks cols rows (l.drop cols)

/-- Reshape a flat kernel using the shape of the freshly constructed model's
kernel (TensorFlow restores each checkpoint tensor into the matching
variable of the rebuilt model). -/
def reshapeLike (template : List (List ℚ)) (flat : List ℚ) : List (List ℚ) :=
  splitChunks (template.headD []).length template.length flat

/-- Two kernels have the same shape: same row count and the stored rows all
have the template's row width. -/
def shapeMatches (template m : List (List ℚ)) : Prop :=
  template.length = m.length ∧ ∀ r ∈ m, r.length = (template.headD []).length

/-- Modelled from the spec: `model.load_weights(MODEL_FILE)` assigns the
checkpoint tensors to the variables of the freshly constructed `MLP()`
(`fresh`), whose architecture supplies the kernel shapes and the
non-variable batch-norm hyperparameters. -/
def loadWeights (fresh : MLPParams) (ck : List (List ℚ)) :
    Option (MLPParams × MLPStats) :=
  match ck with
  | [k1, b1, g1, be1, m1, v1, k2, b2, g2, be2, m2, v2, k3, b3] =>
    some
      (MLPParams.mk
        (DenseParams.mk (reshapeLike fresh.d1.kernel k1) b1)
        (BNParams.mk g1 be1 fresh.bn1.momentum fresh.bn1.epsilon)
        (DenseParams.mk (reshapeLike fresh.d2.kernel k2) b2)
        (BNParams.mk g2 be2 fresh.bn2.momentum fresh.bn2.epsilon)
        (DenseParams.mk (reshapeLike fresh.d3.kernel k3) b3),
       MLPStats.mk (BNStats.mk m1 v1) (BNStats.mk m2 v2))
  | _ => none

/- ===== command-line dispatch (source lines 202-224) ===== -/

/-- Python exceptions that the `__main__` block can raise. -/
inductive PyError where
  | assertionError (msg : String)
  | typeError (msg : String)
deriving DecidableEq

/-- Observable side effects of the `inference` procedure, in program order:
`MLP()` construction, `load_weights`, `cv2.imread` decoding, `predict`. -/
inductive InfEvent where
  | modelConstructed
  | weightsLoaded
  | imageDecoded
  | predicted
deriving DecidableEq

def assertMsgModel : String := "model not found, train a model before calling inference."

def assertMsgImage : String := "can not find image file."

def typeErrMsgNone : String := "stat: path should be string, bytes, os.PathLike or integer, not NoneType"

/-- Embedding of `os.path.exists` over an abstract filesystem `fs`; called on `None`
(missing `--image_path`) it raises `TypeError` as in Python 3. -/
def osPathExists (fs : String → Bool) : Option String → Except PyError Bool
  | none => Except.error (PyError.typeError typeErrMsgNone)
  | some path => Except.ok (fs path)

/-- The `inference` branch of `__main__` (source lines 221-224): assert the
checkpoint index file exists, assert the image file exists, then run
`inference(args.image_path)`.  Returns the side effects performed and the
outcome; on a failed precondition nothing has run. -/
def inferenceMain (fs : String → Bool) (imagePath : Option String) :
    List InfEvent × Except PyError Unit :=
  if fs (MODEL_FILE ++ ".index") = false then
    ([], Except.error (PyError.assertionError assertMsgModel))
  else
    match osPathExists fs imagePath with
    | Except.error err => ([], Except.error err)
    | Except.ok ex =>
      if ex = false then
        ([], Except.error (PyError.assertionError assertMsgImage))
      else
        ([InfEvent.modelConstructed, InfEvent.weightsLoaded,
          InfEvent.imageDecoded, InfEvent.predicted],
         Except.ok ())

/- ===== the training driver as an action trace (source lines 83-190) ===== -/

/-- Observable actions of `train`.  `trainStep i` is one `train_step` call on
batch `i` (forward pass with `training=True`, loss, gradient, optimizer
update, metric accumulation; lines 109-117).  `validStep i` is one
`valid_step` call (forward pass with `training=False`, loss, metric
accumulation, no optimizer update; lines 119-124).  `bnForward i` is the
bare `model(x_batch, training=True)` of the SWA fix-up (line 164), with no
optimizer update.  `validStepMCDropout i` is one `valid_step_with_dropout`
call (lines 126-134). -/
inductive Ev where
  | resetTrainMetrics
  | resetValidMetrics
  | trainStep (i : ℕ)
  | validStep (i : ℕ)
  | validStepMCDropout (i : ℕ)
  | logEpoch (e : ℕ)
  | assignSwaWeights
  | bnForward (i : ℕ)
  | printSwaResult
  | printMCBaseline
  | printMCResult
  | saveWeights
deriving DecidableEq

/-- The body of one epoch of the training loop (source lines 137-158):
reset training metrics, all training batches, reset validation metrics, all
validation batches, then the progress log (printed when verbose). -/
def epochTrace (verbose : Bool) (nT nV e : ℕ) : List Ev :=
  [Ev.resetTrainMetrics] ++ (List.range nT).map Ev.trainStep
    ++ [Ev.resetValidMetrics] ++ (List.range nV).map Ev.validStep
    ++ (if verbose then [Ev.logEpoch e] else [])

/-- The `if use_swa` post-loop phase (source lines 159-170). -/
def swaTrace (nT nV : ℕ) : List Ev :=
  [Ev.assignSwaWeights] ++ (List.range nT).map Ev.bnForward
    ++ [Ev.resetValidMetrics] ++ (List.range nV).map Ev.validStep
    ++ [Ev.printSwaResult]

/-- The `if mc_dropout` post-loop phase (source lines 172-186). -/
def mcTrace (nV : ℕ) : List Ev :=
  [Ev.resetValidMetrics] ++ (List.range nV).map Ev.validStep ++ [Ev.printMCBaseline]
    ++ [Ev.resetValidMetrics] ++ (List.range nV).map Ev.validStepMCDropout
    ++ [Ev.printMCResult]

/-- The action trace of `train` with `numEpochs` epochs over `nT` training
and `nV` validation batches (`use_lookahead` only wraps the optimizer object
and performs no action of its own). -/
def trainTrace (numEpochs nT nV : ℕ)
    (use_swa _use_lookahead mc_dropout verbose : Bool) : List Ev :=
  ((List.range numEpochs).map (epochTrace verbose nT nV)).flatten
    ++ (if use_swa then swaTrace nT nV else [])
    ++ (if mc_dropout then mcTrace nV else [])
    ++ [Ev.saveWeights]

/-- Recogniser for the action that opens an epoch. -/
def isEpochStart : Ev → Bool
  | Ev.resetTrainMetrics => true
  | _ => false

/-- Effect of one action on the model parameter state (of arbitrary type σ).
Only `train_step` (gradient/optimizer update and training-mode batch norm),
the SWA weight swap, the SWA batch-norm fix-up forward pass and the
Monte-Carlo dropout evaluation (training-mode batch norm) can change model
variables; validation in inference mode, metric resets, logging and saving
do not touch them. -/
def evStep {σ : Type} (fT fB fM : ℕ → σ → σ) (fS : σ → σ) : Ev → σ → σ
  | Ev.trainStep i, s => fT i s
  | Ev.bnForward i, s => fB i s
  | Ev.validStepMCDropout i, s => fM i s
  | Ev.assignSwaWeights, s => fS s
  | _, s => s

/-- Run a trace on a parameter state. -/
def runTrace {σ : Type} (fT fB fM : ℕ → σ → σ) (fS : σ → σ) (t : List Ev) (s : σ) : σ :=
  t.foldl (fun s ev => evStep fT fB fM fS ev s) s

/-- The concrete parameter-state effect of one `valid_step_with_dropout` call
with the source's default `num_samples=100`: the batch-norm statistics after
the hundred training-mode forward passes (the trainable parameters are not
touched). -/
def mcDropoutParamStep (rsqrt e lg : ℚ → ℚ) (xb : List (List ℚ)) (yb : List ℕ)
    (masks : ℕ → List (List ℚ)) (_i : ℕ) (s : MLPParams × MLPStats) :
    MLPParams × MLPStats :=
  (s.1, (validStepWithDropout rsqrt e lg s.1 100 s.2 masks xb yb
          (Metrics.mk (MeanState.mk 0 0) (AccState.mk 0 0))).1)

/- ===== concrete sample data used by witnesses ===== -/

def sampleDense : DenseParams := DenseParams.mk [[1]] [0]

def sampleBN : BNParams := BNParams.mk [1] [0] (99 / 100) (1 / 1000)

def sampleBNStats : BNStats := BNStats.mk [0] [0]

def sampleParams : MLPParams :=
  MLPParams.mk sampleDense sampleBN sampleDense sampleBN sampleDense

def sampleStats : MLPStats := MLPStats.mk sampleBNStats sampleBNStats

def sampleFresh : MLPParams :=
  MLPParams.mk (DenseParams.mk [[5]] [6]) (BNParams.mk [7] [8] (99 / 100) (1 / 1000))
    (DenseParams.mk [[5]] [6]) (BNParams.mk [7] [8] (99 / 100) (1 / 1000))
    (DenseParams.mk [[5]] [6])

def sampleParamsTen : MLPParams :=
  MLPParams.mk sampleDense sampleBN sampleDense sampleBN
    (DenseParams.mk (List.replicate 10 [1]) (List.replicate 10 0))

def sampleMetrics : Metrics := Metrics.mk (MeanState.mk 0 0) (AccState.mk 0 0)

def imgPath : String := "digit.png"

/- ===== theorems ===== -/

/-- Claim C3: with the inference procedure selected, if the persisted
checkpoint index or the given image file does not exist, the program stops
with an assertion failure and none of the inference side effects (model
construction, weight loading, image decoding, prediction) happen; the
prediction runs exactly when both files exist. -/
theorem inference_missing_file_asserts (fs : String → Bool) (path : String) :
    (fs (MODEL_FILE ++ ".index") = false ∨ fs path = false →
      (∃ msg, (inferenceMain fs (some path)).2 = Except.error (PyError.assertionError msg))
      ∧ (inferenceMain fs (some path)).1 = [])
    ∧ (InfEvent.predicted ∈ (inferenceMain fs (some path)).1
        ↔ fs (MODEL_FILE ++ ".index") = true ∧ fs path = true) := by
  cases h1 : fs (MODEL_FILE ++ ".index") <;> cases h2 : fs path <;>
    simp [inferenceMain, osPathExists, h1, h2]

theorem inference_missing_file_asserts_witness :
    (∃ msg, (inferenceMain (fun _ => false) (some imgPath)).2
      = Except.error (PyError.assertionError msg))
    ∧ (inferenceMain (fun _ => false) (some imgPath)).1 = [] :=
  (inference_missing_file_asserts (fun _ => false) imgPath).1 (Or.inl rfl)

/-- Claim C10: selecting inference without `--image_path` makes the image
path `None`; once the checkpoint check passes, `os.path.exists(None)` raises
`TypeError`, not the documented assertion, and nothing of inference runs. -/
theorem inference_none_image_path_type_error (fs : String → Bool)
    (hmodel : fs (MODEL_FILE ++ ".index") = true) :
    (inferenceMain fs none).2 = Except.error (PyError.typeError typeErrMsgNone)
    ∧ (∀ msg, (inferenceMain fs none).2 ≠ Except.error (PyError.assertionError msg))
    ∧ (inferenceMain fs none).1 = [] := by
  simp [inferenceMain, osPathExists, hmodel]

theorem inference_none_image_path_type_error_witness :
    (fun _ => true) (MODEL_FILE ++ ".index") = true
    ∧ ((inferenceMain (fun _ => true) none).2
        = Except.error (PyError.typeError typeErrMsgNone)
      ∧ (∀ msg, (inferenceMain (fun _ => true) none).2
          ≠ Except.error (PyError.assertionError msg))
      ∧ (inferenceMain (fun _ => true) none).1 = []) :=
  And.intro rfl (inference_none_image_path_type_error (fun _ => true) rfl)

/- helper lemmas about the action trace -/

theorem isEpochStart_trainStep (i : ℕ) : isEpochStart (Ev.trainStep i) = false := rfl

theorem isEpochStart_validStep (i : ℕ) : isEpochStart (Ev.validStep i) = false := rfl

theorem isEpochStart_mcStep (i : ℕ) : isEpochStart (Ev.validStepMCDropout i) = false := rfl

theorem isEpochStart_bnForward (i : ℕ) : isEpochStart (Ev.bnForward i) = false := rfl

theorem isEpochStart_logEpoch (e : ℕ) : isEpochStart (Ev.logEpoch e) = false := rfl

theorem isEpochStart_resetTrain : isEpochStart Ev.resetTrainMetrics = true := rfl

theorem isEpochStart_resetValid : isEpochStart Ev.resetValidMetrics = false := rfl

theorem isEpochStart_assign : isEpochStart Ev.assignSwaWeights = false := rfl

theorem isEpochStart_printSwa : isEpochStart Ev.printSwaResult = false := rfl

theorem isEpochStart_printBase : isEpochStart Ev.printMCBaseline = false := rfl

theorem isEpochStart_printMC : isEpochStart Ev.printMCResult = false := rfl

theorem isEpochStart_save : isEpochStart Ev.saveWeights = false := rfl

theorem countP_flatten_sum (p : Ev → Bool) :
    ∀ L : List (List Ev), L.flatten.countP p = (L.map (fun l => l.countP p)).sum := by
  intro L
  induction L with
  | nil => rfl
  | cons a t ih => simp [List.countP_append, ih]

theorem epochTrace_countP_one (nT nV k : ℕ) :
    (epochTrace true nT nV k).countP isEpochStart = 1 := by
  simp [epochTrace, List.countP_append, List.countP_cons, List.countP_map,
    isEpochStart_resetTrain, isEpochStart_resetValid, isEpochStart_logEpoch,
    Function.comp_def, isEpochStart_trainStep, isEpochStart_validStep]

theorem swaTrace_countP_zero (nT nV : ℕ) :
    (swaTrace nT nV).countP isEpochStart = 0 := by
  simp [swaTrace, List.countP_append, List.countP_cons, List.countP_map,
    isEpochStart_assign, isEpochStart_resetValid, isEpochStart_printSwa,
    Function.comp_def, isEpochStart_bnForward, isEpochStart_validStep]

theorem mcTrace_countP_zero (nV : ℕ) :
    (mcTrace nV).countP isEpochStart = 0 := by
  simp [mcTrace, List.countP_append, List.countP_cons, List.countP_map,
    isEpochStart_printBase, isEpochStart_resetValid, isEpochStart_printMC,
    Function.comp_def, isEpochStart_mcStep, isEpochStart_validStep]

theorem trainTrace_countP (n nT nV : ℕ) (swa la mc : Bool) :
    (trainTrace n nT nV swa la mc true).countP isEpochStart = n := by
  rw [trainTrace]
  rw [List.countP_append, List.countP_append, List.countP_append]
  rw [countP_flatten_sum]
  rw [List.map_map]
  have h1 : ((List.range n).map (fun k => (epochTrace true nT nV k).countP isEpochStart)).sum
      = ((List.range n).map (fun _ => 1)).sum := by
    apply congrArg
    apply List.map_congr_left
    intro k _
    exact epochTrace_countP_one nT nV k
  have h2 : ((List.range n).map (fun _ => (1 : ℕ))).sum = n := by
    induction n with
    | zero => rfl
    | succ m ih => rw [List.range_succ]; simp [ih]
  have h3 : (if swa then swaTrace nT nV else []).countP isEpochStart = 0 := by
    cases swa
    · rfl
    · exact swaTrace_countP_zero nT nV
  have h4 : (if mc then mcTrace nV else []).countP isEpochStart = 0 := by
    cases mc
    · rfl
    · exact mcTrace_countP_zero nV
  have h5 : ([Ev.saveWeights].countP isEpochStart) = 0 := rfl
  rw [Function.comp_def] at *
  simp only [h3, h4, h5]
  rw [h1, h2]
  omega

theorem flatten_map_length (f : ℕ → List Ev) (L : ℕ) (hf : ∀ k, (f k).length = L) :
    ∀ l : List ℕ, ((l.map f).flatten).length = l.length * L := by
  intro l
  induction l with
  | nil => simp
  | cons a t ih =>
    simp only [List.map_cons, List.flatten_cons, List.length_append, ih, hf a, List.length_cons]
    ring

theorem flatten_map_block (f : ℕ → List Ev) (L : ℕ) (hf : ∀ k, (f k).length = L) :
    ∀ n e, e < n → ∃ pre post,
      ((List.range n).map f).flatten = pre ++ f e ++ post ∧ pre.length = e * L := by
  intro n
  induction n with
  | zero => intro e he; exact absurd he (Nat.not_lt_zero e)
  | succ n ih =>
    intro e he
    rcases Nat.lt_succ_iff_lt_or_eq.mp he with h | h
    · obtain ⟨pre, post, hEq, hLen⟩ := ih e h
      refine ⟨pre, post ++ f n, ?_, hLen⟩
      rw [List.range_succ, List.map_append, List.flatten_append, hEq]
      simp [List.append_assoc]
    · subst h
      refine ⟨((List.range e).map f).flatten, [], ?_, ?_⟩
      · rw [List.range_succ]
        simp
      · rw [flatten_map_length f L hf]
        simp

theorem epochTrace_true_length (nT nV : ℕ) :
    ∀ k, (epochTrace true nT nV k).length = nT + nV + 3 := by
  intro k
  simp [epochTrace]
  omega

theorem trainTrace_epoch_block (n nT nV : ℕ) (swa la mc : Bool) (e : ℕ) (he : e < n) :
    ∃ pre post, trainTrace n nT nV swa la mc true
      = pre ++ ([Ev.resetTrainMetrics] ++ (List.range nT).map Ev.trainStep
          ++ [Ev.resetValidMetrics] ++ (List.range nV).map Ev.validStep
          ++ [Ev.logEpoch e]) ++ post
      ∧ pre.length = e * (nT + nV + 3) := by
  obtain ⟨pre, post, hEq, hLen⟩ :=
    flatten_map_block (epochTrace true nT nV) (nT + nV + 3) (epochTrace_true_length nT nV) n e he
  refine ⟨pre, post ++ ((if swa then swaTrace nT nV else [])
    ++ (if mc then mcTrace nV else []) ++ [Ev.saveWeights]), ?_, hLen⟩
  rw [trainTrace, hEq]
  simp [epochTrace, List.append_assoc]

/-- Claim C4: the training driver performs exactly `NUM_EPOCHS` epochs; each
epoch is a contiguous block that resets the training metrics, runs every
training batch (`train_step`: forward, loss, gradient, optimizer update,
metric accumulation), then resets the validation metrics, runs every
validation batch (`valid_step`: inference-mode forward, loss, metric
accumulation only), and finally logs; the trace ends (with the terminal
`save_weights`) only after all `NUM_EPOCHS` blocks. -/
theorem train_epoch_structure (nT nV : ℕ) (swa la mc : Bool) :
    (trainTrace NUM_EPOCHS nT nV swa la mc true).countP isEpochStart = NUM_EPOCHS
    ∧ ∀ e, e < NUM_EPOCHS → ∃ pre post,
        trainTrace NUM_EPOCHS nT nV swa la mc true
          = pre ++ ([Ev.resetTrainMetrics] ++ (List.range nT).map Ev.trainStep
              ++ [Ev.resetValidMetrics] ++ (List.range nV).map Ev.validStep
              ++ [Ev.logEpoch e]) ++ post
        ∧ pre.length = e * (nT + nV + 3) := by
  constructor
  · exact trainTrace_countP NUM_EPOCHS nT nV swa la mc
  · intro e he
    exact trainTrace_epoch_block NUM_EPOCHS nT nV swa la mc e he

theorem train_epoch_structure_witness :
    ∃ pre post,
      trainTrace NUM_EPOCHS 2 3 false false false true
        = pre ++ ([Ev.resetTrainMetrics] ++ (List.range 2).map Ev.trainStep
            ++ [Ev.resetValidMetrics] ++ (List.range 3).map Ev.validStep
            ++ [Ev.logEpoch 0]) ++ post
      ∧ pre.length = 0 * (2 + 3 + 3) :=
  (train_epoch_structure 2 3 false false false).2 0 (by decide)

/-- Claim C5: the SWA post-loop phase runs exactly when weight-averaging was
enabled: right after the epoch loop the driver swaps in the averaged
parameters (`assign_swa_weights`), replays every training batch through a
training-mode forward pass with no optimizer update to rebuild the
batch-norm statistics, then resets the validation metrics and re-evaluates
every validation batch; with `use_swa` off the swap never appears. -/
theorem train_swa_phase_iff (n nT nV : ℕ) (la mc swa : Bool) :
    (swa = true → ∃ post,
      trainTrace n nT nV true la mc true
        = ((List.range n).map (epochTrace true nT nV)).flatten
          ++ ([Ev.assignSwaWeights] ++ (List.range nT).map Ev.bnForward
              ++ [Ev.resetValidMetrics] ++ (List.range nV).map Ev.validStep
              ++ [Ev.printSwaResult]) ++ post)
    ∧ (Ev.assignSwaWeights ∈ trainTrace n nT nV swa la mc true ↔ swa = true) := by
  constructor
  · intro _
    refine ⟨(if mc then mcTrace nV else []) ++ [Ev.saveWeights], ?_⟩
    rw [trainTrace]
    simp [swaTrace, List.append_assoc]
  · cases swa <;> cases mc <;>
      simp [trainTrace, swaTrace, mcTrace, epochTrace, List.mem_append,
        List.mem_flatten, List.mem_map, List.mem_range]

theorem train_swa_phase_iff_witness :
    ∃ post, trainTrace 2 1 1 true false false true
      = ((List.range 2).map (epochTrace true 1 1)).flatten
        ++ ([Ev.assignSwaWeights] ++ (List.range 1).map Ev.bnForward
            ++ [Ev.resetValidMetrics] ++ (List.range 1).map Ev.validStep
            ++ [Ev.printSwaResult]) ++ post :=
  (train_swa_phase_iff 2 1 1 false false true).1 rfl

/-- Claim C8 (amended): with an epoch count of zero the training loop body
never executes (no `train_step` occurs for any flag settings), and provided
the SWA and Monte-Carlo-dropout post-loop phases are disabled the parameter
state saved at the end equals the initial one, whatever parameter-state
semantics the individual mutating steps have.  (With `use_swa` or
`mc_dropout` enabled, the post-loop phases still run training-mode forward
passes that update the batch-normalization statistics.) -/
theorem train_zero_epochs_params_unchanged {σ : Type} (fT fB fM : ℕ → σ → σ) (fS : σ → σ)
    (nT nV : ℕ) (la v : Bool) (s : σ) :
    runTrace fT fB fM fS (trainTrace 0 nT nV false la false v) s = s
    ∧ ∀ swa mc : Bool, ∀ i : ℕ, Ev.trainStep i ∉ trainTrace 0 nT nV swa la mc v := by
  constructor
  · rfl
  · intro swa mc i
    cases swa <;> cases mc <;> cases v <;>
      simp [trainTrace, swaTrace, mcTrace, List.mem_append, List.mem_flatten, List.mem_map]

theorem train_zero_epochs_params_unchanged_witness :
    runTrace (fun _ k => k + 1) (fun _ k => k + 1) (fun _ k => k + 1) (fun k => k + 1)
      (trainTrace 0 2 3 false false false false) 0 = 0
    ∧ ∀ swa mc : Bool, ∀ i : ℕ, Ev.trainStep i ∉ trainTrace 0 2 3 swa false mc false :=
  train_zero_epochs_params_unchanged (fun _ k => k + 1) (fun _ k => k + 1)
    (fun _ k => k + 1) (fun k => k + 1) 2 3 false false 0

/- helper lemmas about the batch-norm statistics evolution under
training-mode forward passes -/

theorem mcAccum_foldl_snd (rsqrt e : ℚ → ℚ) (p : MLPParams) (xb : List (List ℚ))
    (masks : ℕ → List (List ℚ)) :
    ∀ (l : List ℕ) (outs : List (List (List ℚ))) (st : MLPStats),
      (l.foldl (mcAccum rsqrt e p xb masks) (outs, st)).2
        = (encStatsStep rsqrt p xb)^[l.length] st := by
  intro l
  induction l with
  | nil => intro outs st; rfl
  | cons i t ih =>
    intro outs st
    rw [List.foldl_cons, List.length_cons, Function.iterate_succ_apply]
    exact ih (mcAccum rsqrt e p xb masks (outs, st) i).1
      (mcAccum rsqrt e p xb masks (outs, st) i).2

theorem encStatsStep_iterate_head (rsqrt : ℚ → ℚ) (p : MLPParams) (xb : List (List ℚ))
    (o b : ℚ) (t bs : List ℚ) (st : MLPStats)
    (hold : st.bn1.movingMean = o :: t)
    (hb : bnBatchMean p.bn1 (xb.map (dense p.d1)) = b :: bs) :
    ∀ n : ℕ, ∃ t2, ((encStatsStep rsqrt p xb)^[n] st).bn1.movingMean
      = (b + p.bn1.momentum ^ n * (o - b)) :: t2 := by
  intro n
  induction n with
  | zero =>
    refine ⟨t, ?_⟩
    have h0 : b + p.bn1.momentum ^ 0 * (o - b) = o := by ring
    rw [Function.iterate_zero_apply, hold, h0]
  | succ k ih =>
    obtain ⟨t2, h2⟩ := ih
    have hE : ∀ s : MLPStats, (encStatsStep rsqrt p xb s).bn1.movingMean
        = updateVec p.bn1.momentum s.bn1.movingMean
            (bnBatchMean p.bn1 (xb.map (dense p.d1))) := fun s => rfl
    refine ⟨updateVec p.bn1.momentum t2 bs, ?_⟩
    rw [Function.iterate_succ_apply', hE, h2, hb, updateVec, List.zipWith_cons_cons]
    have hh : p.bn1.momentum * (b + p.bn1.momentum ^ k * (o - b)) + (1 - p.bn1.momentum) * b
        = b + p.bn1.momentum ^ (k + 1) * (o - b) := by ring
    rw [hh]
    rfl

theorem momentum_head_ne (mom o b : ℚ) (n : ℕ) (hn : n ≠ 0) (h0 : 0 ≤ mom)
    (h1 : mom < 1) (hob : o ≠ b) : b + mom ^ n * (o - b) ≠ o := by
  intro h
  have hpow : mom ^ n < 1 := pow_lt_one₀ h0 h1 hn
  have h2 : mom ^ n * (o - b) = o - b := by linarith
  have h3 : (mom ^ n - 1) * (o - b) = 0 := by
    rw [sub_mul, h2, one_mul, sub_self]
  rcases mul_eq_zero.mp h3 with h4 | h4
  · have : mom ^ n = 1 := by linarith
    linarith
  · exact hob (by linarith)

theorem sample_mom_nonneg : (0 : ℚ) ≤ sampleParams.bn1.momentum := by
  norm_num [sampleParams, sampleBN]

theorem sample_mom_lt_one : sampleParams.bn1.momentum < 1 := by
  norm_num [sampleParams, sampleBN]

theorem sample_movingMean : sampleStats.bn1.movingMean = (0 : ℚ) :: [] := rfl

theorem sample_batchMean :
    bnBatchMean sampleParams.bn1 (([[1]] : List (List ℚ)).map (dense sampleParams.d1))
      = (1 : ℚ) :: [] := by
  norm_num [bnBatchMean, featureMeans, vecScale, vecAdd, dense, dot,
    sampleParams, sampleDense, sampleBN]

/-- Claim C8 is false as stated: with zero epochs but `mc_dropout` enabled,
the Monte-Carlo evaluation still runs and its hundred training-mode forward
passes update the batch-normalization moving statistics, so the parameter
state saved at the end differs from its initialization. -/
theorem train_zero_epochs_counterexample :
    runTrace (fun _ s => s) (fun _ s => s)
      (mcDropoutParamStep (fun _ => 1) (fun _ => 1) (fun _ => 0) [[1]] [0] (fun _ => [[1]]))
      (fun s => s)
      (trainTrace 0 0 1 false false true false) (sampleParams, sampleStats)
      ≠ (sampleParams, sampleStats) := by
  intro hEq
  have hrun : runTrace (fun _ s => s) (fun _ s => s)
      (mcDropoutParamStep (fun _ => 1) (fun _ => 1) (fun _ => 0) [[1]] [0] (fun _ => [[1]]))
      (fun s => s)
      (trainTrace 0 0 1 false false true false) (sampleParams, sampleStats)
      = (sampleParams,
         (validStepWithDropout (fun _ => 1) (fun _ => 1) (fun _ => 0) sampleParams 100
           sampleStats (fun _ => [[1]]) [[1]] [0]
           (Metrics.mk (MeanState.mk 0 0) (AccState.mk 0 0))).1) := rfl
  rw [hrun] at hEq
  have hX : (validStepWithDropout (fun _ => 1) (fun _ => 1) (fun _ => 0) sampleParams 100
      sampleStats (fun _ => [[1]]) [[1]] [0]
      (Metrics.mk (MeanState.mk 0 0) (AccState.mk 0 0))).1 = sampleStats :=
    congrArg Prod.snd hEq
  have hfold : (validStepWithDropout (fun _ => 1) (fun _ => 1) (fun _ => 0) sampleParams 100
      sampleStats (fun _ => [[1]]) [[1]] [0]
      (Metrics.mk (MeanState.mk 0 0) (AccState.mk 0 0))).1
      = (encStatsStep (fun _ => 1) sampleParams [[1]])^[100] sampleStats := by
    have h := mcAccum_foldl_snd (fun _ => 1) (fun _ => 1) sampleParams [[1]]
      (fun _ => [[1]]) (List.range 100) [] sampleStats
    rw [List.length_range] at h
    exact h
  obtain ⟨t2, h2⟩ := encStatsStep_iterate_head (fun _ => 1) sampleParams [[1]] 0 1 [] []
    sampleStats sample_movingMean sample_batchMean 100
  have hlist : ((1 : ℚ) + sampleParams.bn1.momentum ^ 100 * (0 - 1)) :: t2 = (0 : ℚ) :: [] := by
    rw [← h2, ← hfold, hX]
    exact sample_movingMean
  have hhead : (1 : ℚ) + sampleParams.bn1.momentum ^ 100 * (0 - 1) = 0 := by
    injection hlist
  exact momentum_head_ne sampleParams.bn1.momentum 0 1 100 (by norm_num)
    sample_mom_nonneg sample_mom_lt_one (by norm_num) hhead

/-- Claim C9: `valid_step_with_dropout` runs each of its stochastic forward
passes with `training=True`, so batch normalization is in training mode and
the model's moving statistics are updated as a side effect of this
evaluation-only phase (whenever the batch statistic differs from the stored
moving statistic and the momentum is below 1), even though no optimizer
update happens. -/
theorem mc_dropout_mutates_bn_stats (rsqrt e lg : ℚ → ℚ) (p : MLPParams) (st : MLPStats)
    (masks : ℕ → List (List ℚ)) (xb : List (List ℚ)) (yb : List ℕ) (m : Metrics)
    (n : ℕ) (o b : ℚ) (t bs : List ℚ)
    (hn : n ≠ 0) (h0 : 0 ≤ p.bn1.momentum) (h1 : p.bn1.momentum < 1)
    (hold : st.bn1.movingMean = o :: t)
    (hb : bnBatchMean p.bn1 (xb.map (dense p.d1)) = b :: bs)
    (hob : o ≠ b) :
    (validStepWithDropout rsqrt e lg p n st masks xb yb m).1.bn1.movingMean
      ≠ st.bn1.movingMean := by
  have hfold : (validStepWithDropout rsqrt e lg p n st masks xb yb m).1
      = (encStatsStep rsqrt p xb)^[n] st := by
    have h := mcAccum_foldl_snd rsqrt e p xb masks (List.range n) [] st
    rw [List.length_range] at h
    exact h
  obtain ⟨t2, h2⟩ := encStatsStep_iterate_head rsqrt p xb o b t bs st hold hb n
  rw [hfold, h2, hold]
  intro hc
  have hhead : b + p.bn1.momentum ^ n * (o - b) = o := by injection hc
  exact momentum_head_ne p.bn1.momentum o b n hn h0 h1 hob hhead

theorem mc_dropout_mutates_bn_stats_witness :
    (1 : ℕ) ≠ 0 ∧ (0 : ℚ) ≤ sampleParams.bn1.momentum ∧ sampleParams.bn1.momentum < 1
    ∧ sampleStats.bn1.movingMean = (0 : ℚ) :: []
    ∧ bnBatchMean sampleParams.bn1 (([[1]] : List (List ℚ)).map (dense sampleParams.d1))
        = (1 : ℚ) :: []
    ∧ (0 : ℚ) ≠ 1
    ∧ (validStepWithDropout (fun _ => 1) (fun _ => 1) (fun _ => 0) sampleParams 1 sampleStats
        (fun _ => [[1]]) [[1]] [0] sampleMetrics).1.bn1.movingMean
      ≠ sampleStats.bn1.movingMean :=
  ⟨one_ne_zero, sample_mom_nonneg, sample_mom_lt_one, sample_movingMean, sample_batchMean,
   zero_ne_one,
   mc_dropout_mutates_bn_stats (fun _ => 1) (fun _ => 1) (fun _ => 0) sampleParams sampleStats
     (fun _ => [[1]]) [[1]] [0] sampleMetrics 1 0 1 [] [] one_ne_zero sample_mom_nonneg
     sample_mom_lt_one sample_movingMean sample_batchMean zero_ne_one⟩

/-- Claim C7: every epoch block opens its training phase with a training
metric reset and its validation phase with a validation metric reset, and
the accuracy accumulator, once reset, reports exactly 100% after a single
batch on which every prediction's argmax equals its label — whatever state
it had accumulated before the reset. -/
theorem metric_reset_then_perfect_batch (nT nV : ℕ) (swa la mc : Bool) (e : ℕ)
    (he : e < NUM_EPOCHS) (prev : AccState) (yb : List ℕ) (out : List (List ℚ))
    (hne : yb ≠ []) (hlen : yb.length = out.length)
    (hcorrect : ∀ pr ∈ yb.zip out, listArgmax pr.2 = pr.1) :
    (∃ pre post, trainTrace NUM_EPOCHS nT nV swa la mc true
        = pre ++ ([Ev.resetTrainMetrics] ++ (List.range nT).map Ev.trainStep
            ++ [Ev.resetValidMetrics] ++ (List.range nV).map Ev.validStep
            ++ [Ev.logEpoch e]) ++ post)
    ∧ accResult (accUpdate (accReset prev) yb out) * 100 = 100 := by
  constructor
  · obtain ⟨pre, post, hEq, _⟩ := trainTrace_epoch_block NUM_EPOCHS nT nV swa la mc e he
    exact ⟨pre, post, hEq⟩
  · have hcount : (yb.zip out).countP (fun pr => listArgmax pr.2 == pr.1)
        = (yb.zip out).length := by
      rw [List.countP_eq_length]
      intro a ha
      exact beq_iff_eq.mpr (hcorrect a ha)
    have hzl : (yb.zip out).length = yb.length := by
      rw [List.length_zip, ← hlen, Nat.min_self]
    have hlen0 : yb.length ≠ 0 := fun h0 => hne (List.length_eq_zero.mp h0)
    have hq : ((yb.length : ℕ) : ℚ) ≠ 0 := Nat.cast_ne_zero.mpr hlen0
    simp only [accReset, accUpdate, accResult, hcount, hzl, zero_add]
    rw [if_neg hq, div_self hq]
    norm_num

theorem metric_reset_then_perfect_batch_witness :
    (∃ pre post, trainTrace NUM_EPOCHS 1 1 false false false true
        = pre ++ ([Ev.resetTrainMetrics] ++ (List.range 1).map Ev.trainStep
            ++ [Ev.resetValidMetrics] ++ (List.range 1).map Ev.validStep
            ++ [Ev.logEpoch 0]) ++ post)
    ∧ accResult (accUpdate (accReset (AccState.mk 5 7)) [0] [[2, 1]]) * 100 = 100 :=
  metric_reset_then_perfect_batch 1 1 false false false 0 (by decide) (AccState.mk 5 7)
    [0] [[2, 1]] (by decide) (by decide) (by decide)

theorem vecScale_one (a : List ℚ) : vecScale 1 a = a := by
  simp [vecScale, one_mul]

theorem matScale_one (m : List (List ℚ)) : matScale 1 m = m := by
  induction m with
  | nil => rfl
  | cons a t ih =>
    show vecScale 1 a :: matScale 1 t = a :: t
    rw [vecScale_one, ih]

theorem stackMean_singleton (o : List (List ℚ)) : stackMean [o] = o := by
  have h1 : ((((o :: []).length : ℕ) : ℚ)) = 1 := by norm_num
  rw [stackMean, h1]
  norm_num [matScale_one]

/-- Claim C6: Monte-Carlo-dropout evaluation with `num_samples=1` is exactly
one standard dropout-enabled forward pass with the same realised dropout
masks: the mean over a stack of one stochastic pass is that pass, so the
batch-norm state change and the loss and accuracy updates coincide. -/
theorem mc_dropout_single_sample (rsqrt e lg : ℚ → ℚ) (p : MLPParams) (st : MLPStats)
    (masks : ℕ → List (List ℚ)) (xb : List (List ℚ)) (yb : List ℕ) (m : Metrics) :
    validStepWithDropout rsqrt e lg p 1 st masks xb yb m
      = singleDropoutPass rsqrt e lg p st (masks 0) xb yb m := by
  rw [validStepWithDropout, singleDropoutPass]
  have hr : List.range 1 = [0] := rfl
  simp only [hr, List.foldl_cons, List.foldl_nil, mcAccum, List.nil_append]
  rw [stackMean_singleton]

/- helper lemmas about softmax, argmax and max -/

theorem sum_map_div (l : List ℚ) (s : ℚ) : (l.map (fun t => t / s)).sum = l.sum / s := by
  induction l with
  | nil => simp
  | cons a t ih => simp [ih, add_div]

theorem map_pos_sum_pos (e : ℚ → ℚ) (he : ∀ t, 0 < e t) (x : List ℚ) (hx : x ≠ []) :
    0 < (x.map e).sum := by
  apply List.sum_pos
  · intro a ha
    obtain ⟨t, _, rfl⟩ := List.mem_map.mp ha
    exact he t
  · cases x
    · exact absurd rfl hx
    · exact List.cons_ne_nil _ _

theorem softmax_sum (e : ℚ → ℚ) (he : ∀ t, 0 < e t) (x : List ℚ) (hx : x ≠ []) :
    (softmax e x).sum = 1 := by
  rw [softmax, sum_map_div]
  exact div_self (ne_of_gt (map_pos_sum_pos e he x hx))

theorem softmax_mem_bounds (e : ℚ → ℚ) (he : ∀ t, 0 < e t) (x : List ℚ) (hx : x ≠ []) :
    ∀ q ∈ softmax e x, 0 ≤ q ∧ q ≤ 1 := by
  intro q hq
  rw [softmax] at hq
  obtain ⟨a, ha, rfl⟩ := List.mem_map.mp hq
  have hapos : 0 < a := by
    obtain ⟨t, _, rfl⟩ := List.mem_map.mp ha
    exact he t
  have hpos : 0 < (x.map e).sum := map_pos_sum_pos e he x hx
  constructor
  · exact div_nonneg (le_of_lt hapos) (le_of_lt hpos)
  · rw [div_le_one hpos]
    exact List.single_le_sum
      (fun b hb => le_of_lt (by
        obtain ⟨t, _, rfl⟩ := List.mem_map.mp hb
        exact he t)) a ha

theorem softmax_length (e : ℚ → ℚ) (x : List ℚ) : (softmax e x).length = x.length := by
  simp [softmax]

theorem argmaxAux_lt (xs : List ℚ) : ∀ (i best : ℕ) (bv : ℚ), best < i →
    argmaxAux i best bv xs < i + xs.length := by
  induction xs with
  | nil =>
    intro i best bv h
    simpa [argmaxAux] using h
  | cons x t ih =>
    intro i best bv h
    simp only [argmaxAux, List.length_cons]
    split
    · have h2 := ih (i + 1) i x (Nat.lt_succ_self i)
      omega
    · have h2 := ih (i + 1) best bv (Nat.lt_succ_of_lt h)
      omega

theorem listArgmax_lt (l : List ℚ) (hl : l ≠ []) : listArgmax l < l.length := by
  cases l with
  | nil => exact absurd rfl hl
  | cons x xs =>
    have h := argmaxAux_lt xs 1 0 x Nat.zero_lt_one
    simp only [listArgmax, List.length_cons]
    omega

theorem foldl_max_mem (xs : List ℚ) : ∀ a : ℚ, xs.foldl max a ∈ a :: xs := by
  induction xs with
  | nil => intro a; simp
  | cons x t ih =>
    intro a
    rw [List.foldl_cons]
    rcases List.mem_cons.mp (ih (max a x)) with h1 | h1
    · rcases max_choice a x with hm | hm
      · rw [h1, hm]
        exact List.mem_cons_self _ _
      · rw [h1, hm]
        exact List.mem_cons_of_mem _ (List.mem_cons_self _ _)
    · exact List.mem_cons_of_mem _ (List.mem_cons_of_mem _ h1)

theorem listMax_mem (l : List ℚ) (hl : l ≠ []) : listMax l ∈ l := by
  cases l with
  | nil => exact absurd rfl hl
  | cons x xs => exact foldl_max_mem xs x

theorem dense_length (p : DenseParams) (x : List ℚ) :
    (dense p x).length = min p.kernel.length p.bias.length := by
  simp [dense, List.length_zipWith]

theorem predict_eq (rsqrt e : ℚ → ℚ) (p : MLPParams) (st : MLPStats) (image : List ℚ) :
    predict rsqrt e p st image
      = softmax e (dense p.d3
          ((bnInfer rsqrt p.bn2 st.bn2
            (dense p.d2 ((bnInfer rsqrt p.bn1 st.bn1 (dense p.d1 image)).map relu))).map relu)) :=
  rfl

/-- Claim C2: for any decoded, normalised input row, the inference procedure
reports the single class index `probs.argmax()`, which lies in
`[0, NUM_CLASS)`, together with a probability `probs.max()` in `[0, 1]`, and
since the decoder ends in a softmax the output row has `NUM_CLASS` entries
that sum to exactly 1 (under the positivity of `exp`). -/
theorem inference_single_class_prob (rsqrt e : ℚ → ℚ) (he : ∀ t, 0 < e t)
    (p : MLPParams) (st : MLPStats) (image : List ℚ)
    (hk : p.d3.kernel.length = NUM_CLASS) (hb : p.d3.bias.length = NUM_CLASS) :
    (inferenceReport rsqrt e p st image).1 < NUM_CLASS
    ∧ 0 ≤ (inferenceReport rsqrt e p st image).2
    ∧ (inferenceReport rsqrt e p st image).2 ≤ 1
    ∧ (predict rsqrt e p st image).sum = 1
    ∧ (predict rsqrt e p st image).length = NUM_CLASS := by
  have hpred := predict_eq rsqrt e p st image
  set H := (bnInfer rsqrt p.bn2 st.bn2
    (dense p.d2 ((bnInfer rsqrt p.bn1 st.bn1 (dense p.d1 image)).map relu))).map relu with hH
  have hlenv : (dense p.d3 H).length = NUM_CLASS := by
    rw [dense_length, hk, hb, Nat.min_self]
  have hvne : dense p.d3 H ≠ [] := by
    intro hnil
    rw [hnil] at hlenv
    simp [NUM_CLASS] at hlenv
  have hplen : (predict rsqrt e p st image).length = NUM_CLASS := by
    rw [hpred, softmax_length, hlenv]
  have hpne : predict rsqrt e p st image ≠ [] := by
    intro hnil
    rw [hnil] at hplen
    simp [NUM_CLASS] at hplen
  refine ⟨?_, ?_, ?_, ?_, hplen⟩
  · have h := listArgmax_lt (predict rsqrt e p st image) hpne
    rw [hplen] at h
    exact h
  · have hm := listMax_mem (predict rsqrt e p st image) hpne
    rw [hpred] at hm
    exact (softmax_mem_bounds e he (dense p.d3 H) hvne _ hm).1
  · have hm := listMax_mem (predict rsqrt e p st image) hpne
    rw [hpred] at hm
    exact (softmax_mem_bounds e he (dense p.d3 H) hvne _ hm).2
  · rw [hpred]
    exact softmax_sum e he (dense p.d3 H) hvne

theorem inference_single_class_prob_witness :
    (∀ t : ℚ, 0 < (fun _ => (1 : ℚ)) t)
    ∧ sampleParamsTen.d3.kernel.length = NUM_CLASS
    ∧ sampleParamsTen.d3.bias.length = NUM_CLASS
    ∧ ((inferenceReport (fun _ => 1) (fun _ => 1) sampleParamsTen sampleStats [1]).1 < NUM_CLASS
      ∧ 0 ≤ (inferenceReport (fun _ => 1) (fun _ => 1) sampleParamsTen sampleStats [1]).2
      ∧ (inferenceReport (fun _ => 1) (fun _ => 1) sampleParamsTen sampleStats [1]).2 ≤ 1
      ∧ (predict (fun _ => 1) (fun _ => 1) sampleParamsTen sampleStats [1]).sum = 1
      ∧ (predict (fun _ => 1) (fun _ => 1) sampleParamsTen sampleStats [1]).length = NUM_CLASS) :=
  ⟨fun _ => one_pos, by decide, by decide,
   inference_single_class_prob (fun _ => 1) (fun _ => 1) (fun _ => one_pos) sampleParamsTen
     sampleStats [1] (by decide) (by decide)⟩

/- helper lemmas for the checkpoint round trip -/

theorem splitChunks_flatten (c : ℕ) :
    ∀ m : List (List ℚ), (∀ r ∈ m, r.length = c) →
      splitChunks c m.length m.flatten = m := by
  intro m
  induction m with
  | nil => intro _; rfl
  | cons r t ih =>
    intro h
    have hr : r.length = c := h r (List.mem_cons_self r t)
    show (r ++ t.flatten).take c :: splitChunks c t.length ((r ++ t.flatten).drop c) = r :: t
    rw [List.take_left' hr, List.drop_left' hr]
    exact congrArg (r :: ·) (ih (fun x hx => h x (List.mem_cons_of_mem r hx)))

theorem reshapeLike_flatten (template m : List (List ℚ)) (h : shapeMatches template m) :
    reshapeLike template m.flatten = m := by
  rw [reshapeLike, h.1]
  exact splitChunks_flatten (template.headD []).length m h.2

/-- Claim C1: the persisted parameters round-trip exactly — loading the
saved checkpoint into a freshly constructed model of the same architecture
restores every variable, so inference (`training=False`) on the reloaded
model produces the same class-probability output as inference on the
in-memory model right after training. -/
theorem save_load_roundtrip_inference (rsqrt e : ℚ → ℚ) (fresh p : MLPParams)
    (st : MLPStats) (image : List ℚ)
    (h1 : shapeMatches fresh.d1.kernel p.d1.kernel)
    (h2 : shapeMatches fresh.d2.kernel p.d2.kernel)
    (h3 : shapeMatches fresh.d3.kernel p.d3.kernel)
    (hm1 : fresh.bn1.momentum = p.bn1.momentum) (he1 : fresh.bn1.epsilon = p.bn1.epsilon)
    (hm2 : fresh.bn2.momentum = p.bn2.momentum) (he2 : fresh.bn2.epsilon = p.bn2.epsilon) :
    loadWeights fresh (saveWeights p st) = some (p, st)
    ∧ ∀ p2 st2, loadWeights fresh (saveWeights p st) = some (p2, st2) →
        predict rsqrt e p2 st2 image = predict rsqrt e p st image := by
  have hload : loadWeights fresh (saveWeights p st) = some (p, st) := by
    rw [saveWeights, loadWeights]
    rw [reshapeLike_flatten _ _ h1, reshapeLike_flatten _ _ h2, reshapeLike_flatten _ _ h3,
        hm1, he1, hm2, he2]
  refine ⟨hload, ?_⟩
  intro p2 st2 hload2
  rw [hload] at hload2
  injection hload2 with hpair
  injection hpair with hp hs
  rw [hp, hs]

theorem save_load_roundtrip_inference_witness :
    shapeMatches sampleFresh.d1.kernel sampleParams.d1.kernel
    ∧ shapeMatches sampleFresh.d2.kernel sampleParams.d2.kernel
    ∧ shapeMatches sampleFresh.d3.kernel sampleParams.d3.kernel
    ∧ sampleFresh.bn1.momentum = sampleParams.bn1.momentum
    ∧ sampleFresh.bn1.epsilon = sampleParams.bn1.epsilon
    ∧ sampleFresh.bn2.momentum = sampleParams.bn2.momentum
    ∧ sampleFresh.bn2.epsilon = sampleParams.bn2.epsilon
    ∧ (loadWeights sampleFresh (saveWeights sampleParams sampleStats)
        = some (sampleParams, sampleStats)
      ∧ ∀ p2 st2, loadWeights sampleFresh (saveWeights sampleParams sampleStats)
          = some (p2, st2) →
          predict (fun _ => 1) (fun _ => 1) p2 st2 [1]
            = predict (fun _ => 1) (fun _ => 1) sampleParams sampleStats [1]) :=
  ⟨⟨rfl, by decide⟩, ⟨rfl, by decide⟩, ⟨rfl, by decide⟩, rfl, rfl, rfl, rfl,
   save_load_roundtrip_inference (fun _ => 1) (fun _ => 1) sampleFresh sampleParams
     sampleStats [1] ⟨rfl, by decide⟩ ⟨rfl, by decide⟩ ⟨rfl, by decide⟩ rfl rfl rfl rfl⟩
